import Mathlib

/-!
Verification of the wb-blockchain event-sync engine.

This file gives a shallow embedding, in Lean 4, of the core of the
wallablock/wb-blockchain repository: the normalized event model
(src/lib/events.ts), the change-field mapping table and the Blockchain
class operations (src/lib/blockchain.ts and its latest revision,
src/unnamed/part_002), the subscription handles
(src/lib/event-subscription.ts) and the raw-value field mappers
(src/unnamed/part_003).  Stateful or asynchronous code is embedded as
explicit state passing (a trace-collecting state monad for resync, pure
dispatch functions for live records); JavaScript dynamic values are an
inductive type with an explicit typeof; fallible code returns Except.
-/

namespace WbBlockchain

/-! ## Raw log data

A decoded raw log (web3 EventData): returnValues is the decoded
field-name-to-value mapping, blockNumber the confirmed position. -/

abbrev ReturnValues := List (String × String)

/-- Property access data.returnValues[k]: some v when the decoded log has the
field, none when the access would yield undefined. -/
def lookupField (rv : ReturnValues) (k : String) : Option String :=
  (rv.find? (fun p => p.1 == k)).map (fun p => p.2)

structure EventData where
  returnValues : ReturnValues
  blockNumber : Nat
deriving Repr, DecidableEq

/-! ## Subscription handles (src/lib/event-subscription.ts)

SimpleEventSubscription owns one nullable underlying stream handle;
CombinedEventSubscription owns a nullable list of child handles.  The
underlying web3 stream is identified by a Nat; releasing it is recorded in
the returned release list, so the observable effect of an unsubscribe call
is the pair (new handle state, handles released by this call). -/

inductive EventSubscription where
  | simple (subscription : Option Nat)
  | combined (subscriptions : Option (List EventSubscription))
deriving Repr

mutual

/-- Embedding of unsubscribe from src/lib/event-subscription.ts: the simple
handle releases its stream and nulls the reference when still held;
the combined handle calls unsubscribe on each child and nulls its list. -/
def unsubscribe : EventSubscription → EventSubscription × List Nat
  | .simple (some h) => (.simple none, [h])
  | .simple none => (.simple none, [])
  | .combined (some cs) => (.combined none, unsubscribeList cs)
  | .combined none => (.combined none, [])

/-- Releases performed by the for-loop over the children of a combined
subscription, in order. -/
def unsubscribeList : List EventSubscription → List Nat
  | [] => []
  | c :: cs => (unsubscribe c).2 ++ unsubscribeList cs

end

/-! ## Normalized event model (src/lib/events.ts)

The TypeScript interfaces declare every field as string; at runtime the
events are plain objects built from untyped decoded data, so a field is
modelled as Option String: some v when the property is present with value
v, none when it would be undefined. -/

structure BlockchainEvent where
  offer : Option String
deriving Repr, DecidableEq

structure CreatedEvent where
  offer : Option String
  seller : Option String
  title : Option String
  price : Option String
  category : Option String
  shipsFrom : Option String
  attachedFiles : Option String
deriving Repr, DecidableEq

structure BoughtEvent where
  offer : Option String
  buyer : Option String
deriving Repr, DecidableEq

/-- ChangedEvent: the offer identity plus the five optional payload fields of
the sparse delta (title, price, category, shipsFrom, attachedFiles). -/
structure ChangedEvent where
  offer : Option String
  title : Option String
  price : Option String
  category : Option String
  shipsFrom : Option String
  attachedFiles : Option String
deriving Repr, DecidableEq

/-- Enumeration keyof ChangedEvent restricted to the payload fields: the
possible values of the objField column of the change table. -/
inductive ChangedField where
  | title
  | price
  | category
  | shipsFrom
  | attachedFiles
deriving Repr, DecidableEq

/-- Payload field access on a ChangedEvent, by field name. -/
def ChangedEvent.payload (e : ChangedEvent) : ChangedField → Option String
  | .title => e.title
  | .price => e.price
  | .category => e.category
  | .shipsFrom => e.shipsFrom
  | .attachedFiles => e.attachedFiles

/-- Number of payload fields of a ChangedEvent that are present. -/
def ChangedEvent.payloadCount (e : ChangedEvent) : Nat :=
  ([e.title, e.price, e.category, e.shipsFrom, e.attachedFiles].filter
    (fun o => o.isSome)).length

/-- Event names of the registry contract (src/lib/blockchain-names.ts,
const enum Event). -/
inductive EventName where
  | Created
  | TitleChanged
  | AttachedFilesChanged
  | PriceChanged
  | CategoryChanged
  | ShipsFromChanged
  | Bought
  | BuyerRejected
  | Completed
  | Cancelled
deriving Repr, DecidableEq

/-! ## Change-field mapping table (src/lib/blockchain.ts, CHANGE_MAPPING) -/

structure ChangeMap where
  event : EventName
  objField : ChangedField
  ethField : String
deriving Repr, DecidableEq

/-- The CHANGE_MAPPING table of src/lib/blockchain.ts lines 318-344 (identical
in src/unnamed/part_002 lines 397-423): one row per single-field changed
event kind. -/
def CHANGE_MAPPING : List ChangeMap :=
  [ { event := .TitleChanged, objField := .title, ethField := "newTitle" },
    { event := .PriceChanged, objField := .price, ethField := "newPrice" },
    { event := .CategoryChanged, objField := .category, ethField := "newCategory" },
    { event := .ShipsFromChanged, objField := .shipsFrom, ethField := "newShipsFrom" },
    { event := .AttachedFilesChanged, objField := .attachedFiles, ethField := "newCID" } ]

/-- Object literal from both onChanged and changedForResync:
offer comes from returnValues.offer and the single computed key
[objField] from returnValues[ethField]; the other payload keys of the
literal are never written, hence absent. -/
def mkChangedFromLog (m : ChangeMap) (rv : ReturnValues) : ChangedEvent :=
  let offer := lookupField rv "offer"
  let v := lookupField rv m.ethField
  match m.objField with
  | .title => { offer := offer, title := v, price := none, category := none,
                shipsFrom := none, attachedFiles := none }
  | .price => { offer := offer, title := none, price := v, category := none,
                shipsFrom := none, attachedFiles := none }
  | .category => { offer := offer, title := none, price := none, category := v,
                   shipsFrom := none, attachedFiles := none }
  | .shipsFrom => { offer := offer, title := none, price := none, category := none,
                    shipsFrom := v, attachedFiles := none }
  | .attachedFiles => { offer := offer, title := none, price := none, category := none,
                        shipsFrom := none, attachedFiles := v }

/-! ## Created event construction

Two revisions of makeCreatedEvent live in the repository.  The revision in
src/unnamed/part_002 lines 377-387 copies all seven declared fields of
CreatedEvent out of the decoded data.  The revision in
src/lib/blockchain.ts lines 299-308 copies only six: the object literal it
returns has no attachedFiles key, although its declared return type
CreatedEvent (src/lib/events.ts lines 5-12) requires one. -/

/-- Embedding of makeCreatedEvent from src/unnamed/part_002: all seven fields
are read from the decoded returnValues. -/
def makeCreatedEvent (data : ReturnValues) : CreatedEvent :=
  { offer := lookupField data "offer",
    seller := lookupField data "seller",
    title := lookupField data "title",
    price := lookupField data "price",
    category := lookupField data "category",
    shipsFrom := lookupField data "shipsFrom",
    attachedFiles := lookupField data "attachedFiles" }

/-- Embedding of makeCreatedEvent from src/lib/blockchain.ts lines 299-308:
the returned object literal has no attachedFiles property, so the field is
absent (undefined) in every event this revision produces. -/
def makeCreatedEventLib (data : ReturnValues) : CreatedEvent :=
  { offer := lookupField data "offer",
    seller := lookupField data "seller",
    title := lookupField data "title",
    price := lookupField data "price",
    category := lookupField data "category",
    shipsFrom := lookupField data "shipsFrom",
    attachedFiles := none }

/-! ## Live subscription dispatch (src/unnamed/part_002, onCreated and friends)

A live stream delivers each raw record either through the data handler
(the source flags it confirmed) or through the changed handler (the source
retracted it in a reorg).  The wiring in onCreated registers
data: callback(makeCreatedEvent(returnValues), blockNumber) and
changed: onRevert(makeCreatedEvent(returnValues)). -/

inductive RecordTag where
  | confirmed
  | retracted
deriving Repr, DecidableEq

structure LiveRecord where
  tag : RecordTag
  data : EventData
deriving Repr, DecidableEq

/-- Observable invocation of a caller-supplied callback: forward carries the
normalized event and the block number, revert carries the event only (the
RevertFn type of part_002 has no block parameter). -/
inductive CallbackCall (E : Type) where
  | forward (event : E) (block : Nat)
  | revert (event : E)
deriving Repr, DecidableEq

/-- Block number observed by a callback invocation: the revert constructor
has none by construction. -/
def CallbackCall.blockOf {E : Type} : CallbackCall E → Option Nat
  | .forward _ b => some b
  | .revert _ => none

/-- Dispatch of one arriving record on the Created subscription
(src/unnamed/part_002 lines 108-125): a confirmed record invokes the
forward callback with the event and data.blockNumber, a retracted record
invokes the revert callback with the event alone. -/
def dispatchCreated (r : LiveRecord) : CallbackCall CreatedEvent :=
  match r.tag with
  | .confirmed => .forward (makeCreatedEvent r.data.returnValues) r.data.blockNumber
  | .retracted => .revert (makeCreatedEvent r.data.returnValues)

/-- Callback invocations produced by a Created subscription over a sequence
of delivered records, in delivery order. -/
def processCreated (rs : List LiveRecord) : List (CallbackCall CreatedEvent) :=
  rs.map dispatchCreated

/-- Dispatch of one arriving record on the per-row stream of the composite
onChanged subscription: both handlers build the event with
mkChangedFromLog for that row. -/
def dispatchChanged (m : ChangeMap) (r : LiveRecord) : CallbackCall ChangedEvent :=
  match r.tag with
  | .confirmed => .forward (mkChangedFromLog m r.data.returnValues) r.data.blockNumber
  | .retracted => .revert (mkChangedFromLog m r.data.returnValues)

/-- Rows over which the live onChanged fan-out iterates: the for-loop of
onChanged (src/lib/blockchain.ts lines 154-181, src/unnamed/part_002 lines
212-242) opens one stream per row of CHANGE_MAPPING. -/
def onChangedRows : List ChangeMap := CHANGE_MAPPING

/-! ## Historical resync (src/unnamed/part_002, resync and changedForResync)

The collaborator is an Env: the current head height and the past-events
query of the LogSource.  The execution is embedded in a state monad that
records every LogSource interaction in a trace, so the claims about how
often and in which order the head is read can be stated about the trace.
The single getBlockNumber call binding latestBlockPromise becomes a single
monadic bind; every runQuery reuses its pure result, exactly as each
.then continuation reuses the one settled latestBlockPromise. -/

structure Env where
  headBlock : Nat
  pastEvents : EventName → Option Nat → Nat → List EventData

/-- LogSource interaction: a read of the chain head, or a bounded historical
query for one event kind with its fromBlock and toBlock. -/
inductive Action where
  | readHead (result : Nat)
  | query (name : EventName) (fromBlock : Option Nat) (toBlock : Nat)
deriving Repr, DecidableEq

structure SyncState where
  env : Env
  trace : List Action

def SyncM (α : Type) := SyncState → α × SyncState

instance : Monad SyncM where
  pure a := fun s => (a, s)
  bind x f := fun s => let r := x s; f r.1 r.2

/-- web3.eth.getBlockNumber(): reads the current head height and records the
read in the trace. -/
def getBlockNumber : SyncM Nat := fun s =>
  (s.env.headBlock, { s with trace := s.trace ++ [Action.readHead s.env.headBlock] })

/-- registryContract.getPastEvents(name, {fromBlock, toBlock}): returns the
matching records and records the bounded query in the trace. -/
def getPastEvents (name : EventName) (fromBlock : Option Nat) (toBlock : Nat) :
    SyncM (List EventData) := fun s =>
  (s.env.pastEvents name fromBlock toBlock,
   { s with trace := s.trace ++ [Action.query name fromBlock toBlock] })

/-- The ResyncUpdate record, with every promise replaced by its settled
value. -/
structure ResyncUpdate where
  syncedToBlock : Nat
  createdContracts : List CreatedEvent
  completedContracts : List BlockchainEvent
  cancelledContracts : List BlockchainEvent
  boughtContracts : List BoughtEvent
  buyerRejectedContracts : List BlockchainEvent
  changedContracts : List ChangedEvent
deriving Repr

/-- The simpleConvert helper of resync: a payload-free event keeps only
returnValues.offer. -/
def simpleConvert (e : EventData) : BlockchainEvent :=
  { offer := lookupField e.returnValues "offer" }

/-- Embedding of Blockchain.resync (src/unnamed/part_002 lines 268-305,
identical control structure in src/lib/blockchain.ts lines 207-246)
together with its helper changedForResync (part_002 lines 307-330): the
head height is bound once, then one bounded query runs per simple event
kind and one per CHANGE_MAPPING row, and the results are decoded and
assembled, the changed groups being flattened by concatenation in table
order. -/
def resyncM (fromBlock : Option Nat) : SyncM ResyncUpdate := do
  let toBlock ← getBlockNumber
  let createdEvs ← getPastEvents .Created fromBlock toBlock
  let completedEvs ← getPastEvents .Completed fromBlock toBlock
  let cancelledEvs ← getPastEvents .Cancelled fromBlock toBlock
  let boughtEvs ← getPastEvents .Bought fromBlock toBlock
  let buyerRejectedEvs ← getPastEvents .BuyerRejected fromBlock toBlock
  let changedGroups ← CHANGE_MAPPING.mapM (fun m => do
    let evs ← getPastEvents m.event fromBlock toBlock
    pure (evs.map (fun e => mkChangedFromLog m e.returnValues)))
  pure
    { syncedToBlock := toBlock,
      createdContracts := createdEvs.map (fun e => makeCreatedEvent e.returnValues),
      completedContracts := completedEvs.map simpleConvert,
      cancelledContracts := cancelledEvs.map simpleConvert,
      boughtContracts := boughtEvs.map (fun e =>
        { offer := lookupField e.returnValues "offer",
          buyer := lookupField e.returnValues "buyer" }),
      buyerRejectedContracts := buyerRejectedEvs.map simpleConvert,
      changedContracts := changedGroups.flatten }

/-- One call to resync against the collaborator env, starting from an empty
trace: the assembled result and the final LogSource interaction trace. -/
def resyncRun (env : Env) (fromBlock : Option Nat) : ResyncUpdate × List Action :=
  let r := resyncM fromBlock { env := env, trace := [] }
  (r.1, r.2.trace)

/-- Order in which resync issues its per-kind historical queries: the five
simple kinds in field order of the returned object, then the five
CHANGE_MAPPING rows in table order. -/
def RESYNC_QUERY_ORDER : List EventName :=
  [.Created, .Completed, .Cancelled, .Bought, .BuyerRejected] ++
    CHANGE_MAPPING.map (fun m => m.event)

/-! ## Offer status

Modelled from the spec: the OfferStatus enumeration is imported by
src/unnamed/part_002 and part_003 from ./OfferStatus, a file missing from
src/; the spec (section 3) fixes it as the closed enumeration
WaitingBuyer, PendingConfirmation, Completed, Cancelled, and the Status
enum present in src (WAITING_BUYER = "0" through CANCELLED = "3") fixes
the underlying string values.  Each enumeration member therefore has a key
(its name) and a string value. -/

inductive OfferStatus where
  | WaitingBuyer
  | PendingConfirmation
  | Completed
  | Cancelled
deriving Repr, DecidableEq

def OfferStatus.key : OfferStatus → String
  | .WaitingBuyer => "WaitingBuyer"
  | .PendingConfirmation => "PendingConfirmation"
  | .Completed => "Completed"
  | .Cancelled => "Cancelled"

def OfferStatus.val : OfferStatus → String
  | .WaitingBuyer => "0"
  | .PendingConfirmation => "1"
  | .Completed => "2"
  | .Cancelled => "3"

/-- Enumeration order of the members, as iterated by for..in over the
enumeration object. -/
def offerStatusEntries : List OfferStatus :=
  [.WaitingBuyer, .PendingConfirmation, .Completed, .Cancelled]

/-! ## CID search (src/unnamed/part_002, findCid)

The collaborator is a CidEnv: the server-side filtered history of the
AttachedFilesChanged family, and the two point reads of live per-offer
contract state that the loop body issues for every matching record. -/

structure CidEnv where
  pastCidEvents : String → List EventData
  contractAttachedFiles : String → String
  contractCurrentStatus : String → OfferStatus

inductive CidSearchFound where
  | FOUND
  | NOT_FOUND
  | GONE
deriving Repr, DecidableEq

/-- Result of findCid: NOT_FOUND and GONE carry no payload, FOUND carries
the collected status set (Set of OfferStatus, kept in insertion order). -/
inductive CidSearchResult where
  | notFound
  | gone
  | found (statuses : List OfferStatus)
deriving Repr, DecidableEq

/-- Set.add of the JS Set: appends the status unless already present. -/
def statusSetAdd (s : List OfferStatus) (x : OfferStatus) : List OfferStatus :=
  if x ∈ s then s else s ++ [x]

/-- Contract address used by the loop body: event.returnValues.offer (every
decoded AttachedFilesChanged record carries its offer address; a malformed
record degenerates to the empty address). -/
def offerOf (e : EventData) : String :=
  (lookupField e.returnValues "offer").getD ""

/-- Body of the findCid loop for one matching record: the current
attachedFiles and currentStatus of the record's offer are re-read from
live contract state, and the current status is added to the set when the
current attachedFiles still equals the queried cid. -/
def findCidStep (env : CidEnv) (cid : String) (statusSet : List OfferStatus)
    (e : EventData) : List OfferStatus :=
  let offer := offerOf e
  let currentAF := env.contractAttachedFiles offer
  let status := env.contractCurrentStatus offer
  if currentAF == cid then statusSetAdd statusSet status else statusSet

/-- Loop of findCid over all matching records, starting from the empty
status set. -/
def findCidLoop (env : CidEnv) (cid : String) (events : List EventData) :
    List OfferStatus :=
  events.foldl (findCidStep env cid) []

/-- Embedding of Blockchain.findCid (src/unnamed/part_002 lines 344-374):
query the full filtered history of AttachedFilesChanged for the cid; if no
records existed return NOT_FOUND; if records existed but the collected
status set is empty return GONE; otherwise return FOUND with the set. -/
def findCid (env : CidEnv) (cid : String) : CidSearchResult :=
  let events := env.pastCidEvents cid
  let statusSet := findCidLoop env cid events
  if events.isEmpty then .notFound
  else if statusSet.isEmpty then .gone
  else .found statusSet

/-! ## Raw field mappers (src/unnamed/part_003)

JavaScript dynamic values, with their typeof, and the MAPPERS table that
converts raw blockchain values into the typed fields of the normalized
events and the offer dump.  Throwing is embedded as Except.error carrying
the message. -/

inductive JsValue where
  | str (s : String)
  | num (n : Int)
  | boolean (b : Bool)
  | null
  | undef
  | obj
deriving Repr, DecidableEq

def typeofJs : JsValue → String
  | .str _ => "string"
  | .num _ => "number"
  | .boolean _ => "boolean"
  | .null => "object"
  | .undef => "undefined"
  | .obj => "object"

/-- Embedding of castOrDie: return the value when its runtime type is
string, otherwise throw. -/
def castOrDie (bdata : JsValue) : Except String String :=
  match bdata with
  | .str s => Except.ok s
  | v => Except.error
      ("Unexpected type: " ++ typeofJs v ++ "; expecting string from blockchain")

/-- Embedding of cvtToUtf8, over the external Web3.utils.hexToUtf8 decoder:
castOrDie first (its throw propagates), then hex-decode only values
carrying the 0x prefix. -/
def cvtToUtf8 (hexToUtf8 : String → String) (bdata : JsValue) :
    Except String String :=
  match castOrDie bdata with
  | .error e => .error e
  | .ok sdata =>
      if sdata.startsWith "0x" then .ok (hexToUtf8 sdata) else .ok sdata

/-- Embedding of cvtToAscii, over the external Web3.utils.hexToAscii
decoder. -/
def cvtToAscii (hexToAscii : String → String) (bdata : JsValue) :
    Except String String :=
  match castOrDie bdata with
  | .error e => .error e
  | .ok sdata =>
      if sdata.startsWith "0x" then .ok (hexToAscii sdata) else .ok sdata

/-- String case of cvtToStatus: scan the enumeration entries and return the
member whose key or value equals the input, else throw. -/
def cvtToStatusStr (s : String) : Except String OfferStatus :=
  match offerStatusEntries.find? (fun st => s == st.key || s == st.val) with
  | some st => Except.ok st
  | none => Except.error ("Unexpected OfferStatus value: " ++ s)

/-- Embedding of cvtToStatus: a string is matched against every enumeration
key and value, a number is first converted with toString, anything else
throws. -/
def cvtToStatus (bdata : JsValue) : Except String OfferStatus :=
  match bdata with
  | .str s => cvtToStatusStr s
  | .num n => cvtToStatusStr (toString n)
  | v => Except.error
      ("Unexpected type: " ++ typeofJs v ++ "; expecting string or number from blockchain")

/-- The MAPPERS table of src/unnamed/part_003 lines 60-70, parameterized by
the two external hex decoders.  The offer entry is the arrow
(x) => x as string: a compile-time cast with no runtime check, so its
embedding returns the input value unchanged whatever its runtime type. -/
structure MappersT where
  offer : JsValue → Except String JsValue
  seller : JsValue → Except String String
  title : JsValue → Except String String
  price : JsValue → Except String String
  category : JsValue → Except String String
  shipsFrom : JsValue → Except String String
  attachedFiles : JsValue → Except String String
  buyer : JsValue → Except String String
  status : JsValue → Except String OfferStatus

def MAPPERS (hexToUtf8 hexToAscii : String → String) : MappersT :=
  { offer := fun x => Except.ok x,
    seller := castOrDie,
    title := castOrDie,
    price := castOrDie,
    category := cvtToUtf8 hexToUtf8,
    shipsFrom := cvtToAscii hexToAscii,
    attachedFiles := cvtToAscii hexToAscii,
    buyer := castOrDie,
    status := cvtToStatus }

/-! ## Concrete instruments for the statements

Predicates on trace actions and small concrete collaborator environments
used to evaluate the definitions on explicit inputs. -/

/-- Test for a chain-head read in a trace. -/
def isReadHead : Action → Bool
  | .readHead _ => true
  | .query _ _ _ => false

/-- Test for a historical query of one of the changed-field event kinds. -/
def isChangedKindQuery : Action → Bool
  | .query n _ _ => CHANGE_MAPPING.any (fun m => m.event == n)
  | .readHead _ => false

/-- A decoded Created log with all seven raw fields present. -/
def sampleCreatedLog : ReturnValues :=
  [("offer", "0xOfferAddr"), ("seller", "0xSellerAddr"), ("title", "Lamp"),
   ("price", "1000000000000000000"), ("category", "home"), ("shipsFrom", "ES"),
   ("attachedFiles", "QmSampleCid")]

/-- Collaborator environment whose history holds one TitleChanged record at
block 5 and one PriceChanged record at block 3 and nothing else. -/
def blockOrderEnv : Env :=
  { headBlock := 10,
    pastEvents := fun n _ _ =>
      match n with
      | .TitleChanged =>
          [{ returnValues := [("offer", "0xA"), ("newTitle", "T2")], blockNumber := 5 }]
      | .PriceChanged =>
          [{ returnValues := [("offer", "0xB"), ("newPrice", "9")], blockNumber := 3 }]
      | _ => [] }

/-- Collaborator environment with an empty AttachedFilesChanged history for
every cid. -/
def cidEnvEmptyHistory : CidEnv :=
  { pastCidEvents := fun _ => [],
    contractAttachedFiles := fun _ => "",
    contractCurrentStatus := fun _ => .WaitingBuyer }

/-! ## Theorems -/

/-- C3: unsubscribe is idempotent for every handle, simple or combined: the
first call on a live simple handle releases its underlying stream and
clears the internal reference, the first call on a live combined handle
clears its child list, and a second call on the resulting handle performs
no release and returns without effect. -/
theorem unsubscribe_idempotent :
    (∀ h, unsubscribe (.simple (some h)) = (.simple none, [h])) ∧
    (∀ cs, (unsubscribe (.combined (some cs))).1 = .combined none) ∧
    (∀ s, unsubscribe (unsubscribe s).1 = ((unsubscribe s).1, [])) := by
  refine ⟨fun h => rfl, fun cs => rfl, fun s => ?_⟩
  match s with
  | .simple (some h) => rfl
  | .simple none => rfl
  | .combined (some cs) => rfl
  | .combined none => rfl

/-- C4: a combined subscription built from N child handles, on its first
unsubscribe call, releases the underlying stream of every one of the N
children exactly once (the release list is exactly the list of child
stream handles, in order) and every child handle ends inactive. -/
theorem combined_unsubscribe_releases_each_child_once (hs : List Nat) :
    unsubscribe (.combined (some (hs.map (fun h => .simple (some h))))) =
      (.combined none, hs) ∧
    hs.map (fun h => (unsubscribe (.simple (some h))).1) =
      hs.map (fun _ => .simple none) := by
  have key : ∀ l : List Nat,
      unsubscribeList (l.map (fun h => .simple (some h))) = l := by
    intro l
    induction l with
    | nil => rfl
    | cons a t ih => simp only [List.map_cons, unsubscribeList, unsubscribe, ih]; rfl
  refine ⟨?_, ?_⟩
  · show (EventSubscription.combined none,
      unsubscribeList (hs.map (fun h => .simple (some h)))) = (.combined none, hs)
    rw [key]
  · simp [unsubscribe]

/-- C8: a live record flagged confirmed invokes the forward callback with
the normalized event and its block number, a record flagged retracted
invokes the revert callback with the event alone and no block number, and
a record delivered confirmed then retracted triggers forward once then
revert once, in that order. -/
theorem live_record_dispatch (d : EventData) :
    dispatchCreated { tag := .confirmed, data := d } =
      .forward (makeCreatedEvent d.returnValues) d.blockNumber ∧
    dispatchCreated { tag := .retracted, data := d } =
      .revert (makeCreatedEvent d.returnValues) ∧
    (dispatchCreated { tag := .retracted, data := d }).blockOf = none ∧
    processCreated
        [{ tag := .confirmed, data := d }, { tag := .retracted, data := d }] =
      [.forward (makeCreatedEvent d.returnValues) d.blockNumber,
       .revert (makeCreatedEvent d.returnValues)] :=
  ⟨rfl, rfl, rfl, rfl⟩

/-- C1: one resync call reads the chain head exactly once, before any
per-kind historical query; every per-kind query, for the five simple kinds
and for every changed-field kind in table order, is bounded above by that
single captured height; and the returned syncedToBlock equals the same
captured height. -/
theorem resync_captures_height_once (env : Env) (fromBlock : Option Nat) :
    (resyncRun env fromBlock).2 =
      Action.readHead env.headBlock ::
        RESYNC_QUERY_ORDER.map (fun n => Action.query n fromBlock env.headBlock) ∧
    ((resyncRun env fromBlock).2.filter isReadHead).length = 1 ∧
    (resyncRun env fromBlock).1.syncedToBlock = env.headBlock :=
  ⟨rfl, rfl, rfl⟩

/-- C6: the change-field table holds exactly the five rows
title/newTitle, price/newPrice, category/newCategory,
shipsFrom/newShipsFrom and attachedFiles/newCID; the live onChanged
fan-out iterates exactly these rows, and the historical changed-event
queries of one resync are exactly one per row, in table order. -/
theorem change_mapping_five_rows (env : Env) (fromBlock : Option Nat) :
    CHANGE_MAPPING =
      [ { event := .TitleChanged, objField := .title, ethField := "newTitle" },
        { event := .PriceChanged, objField := .price, ethField := "newPrice" },
        { event := .CategoryChanged, objField := .category, ethField := "newCategory" },
        { event := .ShipsFromChanged, objField := .shipsFrom, ethField := "newShipsFrom" },
        { event := .AttachedFilesChanged, objField := .attachedFiles, ethField := "newCID" } ] ∧
    CHANGE_MAPPING.length = 5 ∧
    onChangedRows = CHANGE_MAPPING ∧
    (resyncRun env fromBlock).2.filter isChangedKindQuery =
      CHANGE_MAPPING.map (fun m => Action.query m.event fromBlock env.headBlock) :=
  ⟨rfl, rfl, rfl, rfl⟩

/-- C10: the changed collection returned by resync is the concatenation of
the per-field-kind query results in fixed table order (all title changes,
then price, category, shipsFrom, attachedFiles), each group in the order
its own query returned; and it is not globally ordered by block height: in
a history whose only TitleChanged record sits at block 5 and whose only
PriceChanged record sits at block 3, the title event precedes the price
event in the returned collection. -/
theorem resync_changed_concat_in_table_order :
    (∀ (env : Env) (fromBlock : Option Nat),
      (resyncRun env fromBlock).1.changedContracts =
        (env.pastEvents .TitleChanged fromBlock env.headBlock).map
          (fun e => mkChangedFromLog
            { event := .TitleChanged, objField := .title, ethField := "newTitle" }
            e.returnValues) ++
        (env.pastEvents .PriceChanged fromBlock env.headBlock).map
          (fun e => mkChangedFromLog
            { event := .PriceChanged, objField := .price, ethField := "newPrice" }
            e.returnValues) ++
        (env.pastEvents .CategoryChanged fromBlock env.headBlock).map
          (fun e => mkChangedFromLog
            { event := .CategoryChanged, objField := .category, ethField := "newCategory" }
            e.returnValues) ++
        (env.pastEvents .ShipsFromChanged fromBlock env.headBlock).map
          (fun e => mkChangedFromLog
            { event := .ShipsFromChanged, objField := .shipsFrom, ethField := "newShipsFrom" }
            e.returnValues) ++
        (env.pastEvents .AttachedFilesChanged fromBlock env.headBlock).map
          (fun e => mkChangedFromLog
            { event := .AttachedFilesChanged, objField := .attachedFiles, ethField := "newCID" }
            e.returnValues)) ∧
    (resyncRun blockOrderEnv none).1.changedContracts =
      [ { offer := some "0xA", title := some "T2", price := none, category := none,
          shipsFrom := none, attachedFiles := none },
        { offer := some "0xB", title := none, price := some "9", category := none,
          shipsFrom := none, attachedFiles := none } ] ∧
    (blockOrderEnv.pastEvents .TitleChanged none 10).map (fun e => e.blockNumber) = [5] ∧
    (blockOrderEnv.pastEvents .PriceChanged none 10).map (fun e => e.blockNumber) = [3] := by
  refine ⟨fun env fromBlock => ?_, ?_, rfl, rfl⟩
  · show ((env.pastEvents .TitleChanged fromBlock env.headBlock).map _ ++
      ((env.pastEvents .PriceChanged fromBlock env.headBlock).map _ ++
        ((env.pastEvents .CategoryChanged fromBlock env.headBlock).map _ ++
          ((env.pastEvents .ShipsFromChanged fromBlock env.headBlock).map _ ++
            ((env.pastEvents .AttachedFilesChanged fromBlock env.headBlock).map _ ++
              []))))) = _
    simp only [List.append_nil, List.append_assoc]
  · rfl

/-- C7: on a decoded Created log carrying all seven raw fields, the
makeCreatedEvent revision of src/unnamed/part_002 returns an event with
all seven fields present and the price passed through as the raw decimal
string, but the makeCreatedEvent revision of src/lib/blockchain.ts returns
an event whose attachedFiles field is absent, contradicting the
CreatedEvent interface of src/lib/events.ts that both revisions declare as
their return type. -/
theorem makeCreatedEvent_attachedFiles_divergence :
    lookupField sampleCreatedLog "attachedFiles" = some "QmSampleCid" ∧
    (makeCreatedEventLib sampleCreatedLog).attachedFiles = none ∧
    makeCreatedEvent sampleCreatedLog =
      { offer := some "0xOfferAddr", seller := some "0xSellerAddr",
        title := some "Lamp", price := some "1000000000000000000",
        category := some "home", shipsFrom := some "ES",
        attachedFiles := some "QmSampleCid" } ∧
    (makeCreatedEvent sampleCreatedLog).price =
      lookupField sampleCreatedLog "price" ∧
    (makeCreatedEventLib sampleCreatedLog).price =
      lookupField sampleCreatedLog "price" :=
  ⟨rfl, rfl, rfl, rfl, rfl⟩

/-- C5: a Changed event built from one raw log of a changed-field kind
carries the offer identity of the log and exactly one payload field, the
one named by the table row, the other four payload fields being absent;
every live record on a per-row stream yields exactly one Changed instance
(a forward or a revert of the event built from that one log), and the
historical changed collection holds exactly one Changed event per raw log
returned by the per-kind queries, so no two raw logs are merged. -/
theorem changed_event_exactly_one_payload_field
    (m : ChangeMap) (hm : m ∈ CHANGE_MAPPING) (rv : ReturnValues)
    (o v : String) (ho : lookupField rv "offer" = some o)
    (hv : lookupField rv m.ethField = some v) :
    ((mkChangedFromLog m rv).offer = some o ∧
     (mkChangedFromLog m rv).payload m.objField = some v ∧
     (mkChangedFromLog m rv).payloadCount = 1 ∧
     (∀ f, f ≠ m.objField → (mkChangedFromLog m rv).payload f = none)) ∧
    (∀ r : LiveRecord,
      dispatchChanged m r =
          .forward (mkChangedFromLog m r.data.returnValues) r.data.blockNumber ∨
      dispatchChanged m r = .revert (mkChangedFromLog m r.data.returnValues)) ∧
    (∀ (env : Env) (fromBlock : Option Nat),
      ((resyncRun env fromBlock).1.changedContracts).length =
        (CHANGE_MAPPING.map
          (fun m2 => (env.pastEvents m2.event fromBlock env.headBlock).length)).sum) := by
  refine ⟨?_, ?_, ?_⟩
  · cases hf : m.objField <;>
      simp_all [mkChangedFromLog, ChangedEvent.payload, ChangedEvent.payloadCount] <;>
      intro f hf2 <;> cases f <;> simp_all [ChangedEvent.payload]
  · intro r
    cases ht : r.tag
    · exact Or.inl (by simp [dispatchChanged, ht])
    · exact Or.inr (by simp [dispatchChanged, ht])
  · intro env fromBlock
    show ((env.pastEvents .TitleChanged fromBlock env.headBlock).map _ ++
      ((env.pastEvents .PriceChanged fromBlock env.headBlock).map _ ++
        ((env.pastEvents .CategoryChanged fromBlock env.headBlock).map _ ++
          ((env.pastEvents .ShipsFromChanged fromBlock env.headBlock).map _ ++
            ((env.pastEvents .AttachedFilesChanged fromBlock env.headBlock).map _ ++
              []))))).length = _
    simp [List.length_append, CHANGE_MAPPING]

/-- Witness for C5: the title row, applied to a decoded TitleChanged log
with offer 0xA and newTitle T, yields a Changed event whose only payload
field is the title. -/
theorem changed_event_exactly_one_payload_field_witness :
    (mkChangedFromLog
        { event := .TitleChanged, objField := .title, ethField := "newTitle" }
        [("offer", "0xA"), ("newTitle", "T")]).payloadCount = 1 :=
  (changed_event_exactly_one_payload_field
    { event := .TitleChanged, objField := .title, ethField := "newTitle" }
    (by decide) [("offer", "0xA"), ("newTitle", "T")] "0xA" "T" rfl rfl).1.2.2.1

/-- Membership in the JS Set after an add: the added element joins the
carrier without duplication. -/
theorem statusSetAdd_mem (s : List OfferStatus) (x y : OfferStatus) :
    y ∈ statusSetAdd s x ↔ y ∈ s ∨ y = x := by
  unfold statusSetAdd
  split
  · rename_i hx
    constructor
    · exact Or.inl
    · intro h
      cases h with
      | inl h => exact h
      | inr h => exact h ▸ hx
  · simp [List.mem_append]

/-- Membership in the findCid status set, relative to an arbitrary starting
accumulator: a status is collected exactly when some scanned record's
offer still carries the cid and currently has that status. -/
theorem findCid_fold_mem (env : CidEnv) (cid : String) (events : List EventData)
    (acc : List OfferStatus) (st : OfferStatus) :
    st ∈ events.foldl (findCidStep env cid) acc ↔
      st ∈ acc ∨ ∃ e ∈ events, env.contractAttachedFiles (offerOf e) = cid ∧
        env.contractCurrentStatus (offerOf e) = st := by
  induction events generalizing acc with
  | nil => simp
  | cons e t ih =>
    simp only [List.foldl_cons, ih, List.mem_cons]
    unfold findCidStep
    by_cases hc : env.contractAttachedFiles (offerOf e) = cid
    · have hbeq : (env.contractAttachedFiles (offerOf e) == cid) = true := by
        simp [hc]
      simp only [hbeq, if_true, statusSetAdd_mem]
      constructor
      · rintro (⟨h | h⟩ | ⟨e2, he2, h1, h2⟩)
        · exact Or.inl h
        · exact Or.inr ⟨e, Or.inl rfl, hc, h.symm⟩
        · exact Or.inr ⟨e2, Or.inr he2, h1, h2⟩
      · rintro (h | ⟨e2, he2 | he2, h1, h2⟩)
        · exact Or.inl (Or.inl h)
        · exact Or.inl (Or.inr (by rw [he2] at h2; exact h2.symm))
        · exact Or.inr ⟨e2, he2, h1, h2⟩
    · have : (env.contractAttachedFiles (offerOf e) == cid) = false := by
        simp [hc]
      simp only [this, if_false]
      constructor
      · rintro (h | ⟨e2, he2, h1, h2⟩)
        · exact Or.inl h
        · exact Or.inr ⟨e2, Or.inr he2, h1, h2⟩
      · rintro (h | ⟨e2, he2 | he2, h1, h2⟩)
        · exact Or.inl h
        · exact absurd (he2 ▸ h1) hc
        · exact Or.inr ⟨e2, he2, h1, h2⟩

/-- C2: findCid returns NotFound exactly when the filtered
AttachedFilesChanged history for the cid is empty; when records exist but
no matched offer's current attachedFiles still equals the cid it returns
Gone; and whenever it returns Found, the carried set holds exactly the
current statuses of the offers whose current attachedFiles still equals
the cid, in particular Found is returned as soon as one matched offer
still carries the cid. -/
theorem findCid_classification (env : CidEnv) (cid : String) :
    (env.pastCidEvents cid = [] → findCid env cid = .notFound) ∧
    (env.pastCidEvents cid ≠ [] →
      (∀ e ∈ env.pastCidEvents cid,
        env.contractAttachedFiles (offerOf e) ≠ cid) →
      findCid env cid = .gone) ∧
    (∀ sts, findCid env cid = .found sts →
      ∀ st, st ∈ sts ↔ ∃ e ∈ env.pastCidEvents cid,
        env.contractAttachedFiles (offerOf e) = cid ∧
        env.contractCurrentStatus (offerOf e) = st) ∧
    (∀ e ∈ env.pastCidEvents cid,
      env.contractAttachedFiles (offerOf e) = cid →
      ∃ sts, findCid env cid = .found sts ∧
        env.contractCurrentStatus (offerOf e) ∈ sts) := by
  have hmem : ∀ st, st ∈ findCidLoop env cid (env.pastCidEvents cid) ↔
      ∃ e ∈ env.pastCidEvents cid,
        env.contractAttachedFiles (offerOf e) = cid ∧
        env.contractCurrentStatus (offerOf e) = st := by
    intro st
    simpa using findCid_fold_mem env cid (env.pastCidEvents cid) [] st
  refine ⟨?_, ?_, ?_, ?_⟩
  · intro h
    simp [findCid, h]
  · intro hne hnomatch
    have hloop : findCidLoop env cid (env.pastCidEvents cid) = [] := by
      rcases hl : findCidLoop env cid (env.pastCidEvents cid) with _ | ⟨st, rest⟩
      · rfl
      · exfalso
        have : st ∈ findCidLoop env cid (env.pastCidEvents cid) := by
          rw [hl]; exact List.mem_cons_self st rest
        rcases (hmem st).1 this with ⟨e, he, h1, _⟩
        exact hnomatch e he h1
    simp [findCid, hloop, List.isEmpty_iff, hne]
  · intro sts hfound st
    have : sts = findCidLoop env cid (env.pastCidEvents cid) := by
      by_cases h1 : (env.pastCidEvents cid).isEmpty
      · simp [findCid, h1] at hfound
      · by_cases h2 : (findCidLoop env cid (env.pastCidEvents cid)).isEmpty
        · simp [findCid, h1, h2] at hfound
        · simp [findCid, h1, h2] at hfound
          exact hfound.symm
    rw [this]
    exact hmem st
  · intro e he hmatch
    have hst : env.contractCurrentStatus (offerOf e) ∈
        findCidLoop env cid (env.pastCidEvents cid) :=
      (hmem _).2 ⟨e, he, hmatch, rfl⟩
    have h1 : ¬(env.pastCidEvents cid).isEmpty := by
      rcases hl : env.pastCidEvents cid with _ | ⟨x, xs⟩
      · rw [hl] at he; exact absurd he (List.not_mem_nil e)
      · simp
    have h2 : ¬(findCidLoop env cid (env.pastCidEvents cid)).isEmpty := by
      rcases hl : findCidLoop env cid (env.pastCidEvents cid) with _ | ⟨x, xs⟩
      · rw [hl] at hst; exact absurd hst (List.not_mem_nil _)
      · simp
    exact ⟨findCidLoop env cid (env.pastCidEvents cid),
      by simp [findCid, h1, h2], hst⟩

/-- Witness for C2: against a collaborator whose filtered history is empty
for every cid, findCid answers NotFound. -/
theorem findCid_classification_witness :
    findCid cidEnvEmptyHistory "QmSampleCid" = .notFound :=
  (findCid_classification cidEnvEmptyHistory "QmSampleCid").1 rfl

/-- C9 counterexample: the offer entry of the MAPPERS table, applied to the
number 42 — a raw value whose runtime type is number, not the expected
textual type — does not throw: it returns the non-textual value unchanged,
so it is not true that every field mapper throws instead of silently
coercing. -/
theorem offer_mapper_passes_number_through :
    (MAPPERS id id).offer (JsValue.num 42) = Except.ok (JsValue.num 42) ∧
    typeofJs (JsValue.num 42) ≠ "string" :=
  ⟨rfl, by decide⟩

/-- C9 amended: every field mapper except the offer mapper throws on a raw
value whose runtime type is not string — castOrDie returns a string
unchanged and accepts exactly the string values, and the seller, title,
price, buyer, category, shipsFrom and attachedFiles mappers succeed
exactly when castOrDie does — while the offer mapper returns its input
unchanged with no runtime check; the status mapper maps every enumeration
key and every enumeration value to the corresponding status, accepts a
string exactly when it is such a key or value, converts a number with
toString before the same scan, and throws on every other runtime type. -/
theorem mappers_reject_non_textual (hexToUtf8 hexToAscii : String → String) :
    (∀ s, castOrDie (.str s) = .ok s) ∧
    (∀ v, (castOrDie v).isOk = true ↔ ∃ s, v = .str s) ∧
    (∀ v, ((MAPPERS hexToUtf8 hexToAscii).seller v).isOk = (castOrDie v).isOk ∧
          ((MAPPERS hexToUtf8 hexToAscii).title v).isOk = (castOrDie v).isOk ∧
          ((MAPPERS hexToUtf8 hexToAscii).price v).isOk = (castOrDie v).isOk ∧
          ((MAPPERS hexToUtf8 hexToAscii).buyer v).isOk = (castOrDie v).isOk ∧
          ((MAPPERS hexToUtf8 hexToAscii).category v).isOk = (castOrDie v).isOk ∧
          ((MAPPERS hexToUtf8 hexToAscii).shipsFrom v).isOk = (castOrDie v).isOk ∧
          ((MAPPERS hexToUtf8 hexToAscii).attachedFiles v).isOk = (castOrDie v).isOk) ∧
    (∀ v, (MAPPERS hexToUtf8 hexToAscii).offer v = .ok v) ∧
    (∀ st : OfferStatus,
      cvtToStatus (.str st.key) = .ok st ∧ cvtToStatus (.str st.val) = .ok st) ∧
    (∀ s, (cvtToStatus (.str s)).isOk = true ↔
      ∃ st : OfferStatus, s = st.key ∨ s = st.val) ∧
    (∀ n : Int, cvtToStatus (.num n) = cvtToStatusStr (toString n)) ∧
    (∀ b, (cvtToStatus (.boolean b)).isOk = false) ∧
    (cvtToStatus .null).isOk = false ∧
    (cvtToStatus .undef).isOk = false ∧
    (cvtToStatus .obj).isOk = false := by
  have hkeys : ∀ st : OfferStatus,
      cvtToStatus (.str st.key) = .ok st ∧ cvtToStatus (.str st.val) = .ok st := by
    intro st
    cases st <;> exact ⟨rfl, rfl⟩
  have hhex : ∀ (hex : String → String) (s : String),
      (match castOrDie (.str s) with
        | Except.error e => Except.error e
        | Except.ok sdata =>
            if sdata.startsWith "0x" then Except.ok (hex sdata) else Except.ok sdata).isOk
        = (castOrDie (.str s)).isOk := by
    intro hex s
    show (if s.startsWith "0x" then Except.ok (hex s) else Except.ok s).isOk = true
    split <;> rfl
  refine ⟨fun s => rfl, ?_, ?_, fun v => rfl, hkeys, ?_, fun n => rfl, fun b => rfl,
    rfl, rfl, rfl⟩
  · intro v
    cases v with
    | str s => exact iff_of_true rfl ⟨s, rfl⟩
    | num n => exact iff_of_false (fun h => nomatch h) (fun ⟨s, h⟩ => nomatch h)
    | boolean b => exact iff_of_false (fun h => nomatch h) (fun ⟨s, h⟩ => nomatch h)
    | null => exact iff_of_false (fun h => nomatch h) (fun ⟨s, h⟩ => nomatch h)
    | undef => exact iff_of_false (fun h => nomatch h) (fun ⟨s, h⟩ => nomatch h)
    | obj => exact iff_of_false (fun h => nomatch h) (fun ⟨s, h⟩ => nomatch h)
  · intro v
    cases v with
    | str s => exact ⟨rfl, rfl, rfl, rfl, hhex hexToUtf8 s, hhex hexToAscii s,
        hhex hexToAscii s⟩
    | num n => exact ⟨rfl, rfl, rfl, rfl, rfl, rfl, rfl⟩
    | boolean b => exact ⟨rfl, rfl, rfl, rfl, rfl, rfl, rfl⟩
    | null => exact ⟨rfl, rfl, rfl, rfl, rfl, rfl, rfl⟩
    | undef => exact ⟨rfl, rfl, rfl, rfl, rfl, rfl, rfl⟩
    | obj => exact ⟨rfl, rfl, rfl, rfl, rfl, rfl, rfl⟩
  · intro s
    constructor
    · intro hok
      have hok2 : (cvtToStatusStr s).isOk = true := hok
      unfold cvtToStatusStr at hok2
      rcases hfind : offerStatusEntries.find? (fun st => s == st.key || s == st.val)
        with _ | st
      · rw [hfind] at hok2
        exact nomatch hok2
      · have hp := List.find?_some hfind
        simp only [Bool.or_eq_true, beq_iff_eq] at hp
        exact ⟨st, hp⟩
    · rintro ⟨st, h | h⟩
      · rw [h]
        rw [show cvtToStatus (.str st.key) = Except.ok st from (hkeys st).1]
        rfl
      · rw [h]
        rw [show cvtToStatus (.str st.val) = Except.ok st from (hkeys st).2]
        rfl

end WbBlockchain
